import Mathlib

/-!
Shallow embedding of the `bevy_movement` character controller crate
(`src/input.rs`, `src/movement.rs`, `src/controller.rs`).

Modelling conventions:
* the physics scalar (`avian3d::math::Scalar`, an `f32` in the default
  build) is idealised as the exact rationals `ℚ`;
* transcendental library routines (`sqrt` inside glam's
  `clamp_length_max`, `angle_between`, quaternion constructors) are taken
  as explicit function parameters, so every definition stays executable;
* a Bevy `Query` over controller entities becomes a `List` of records,
  and the `MessageWriter`/`MessageReader` pair becomes a `List` of
  `MovementAction` values produced by the input systems and folded over
  by the consuming systems, in the `.chain()` order fixed by
  `CharacterControllerPlugin` (keyboard, then gamepad, then movement,
  then mouse look, then damping).
-/

namespace BevyMovement

/-- The physics scalar of the crate, idealised as exact rationals. -/
abbrev Scalar := ℚ

/-- 2D vector (avian's `Vector2`). -/
structure Vector2 where
  x : Scalar
  y : Scalar
deriving DecidableEq

namespace Vector2

/-- `Vector2::ZERO`. -/
def ZERO : Vector2 := ⟨0, 0⟩

/-- glam's `length_squared`. -/
def length_squared (v : Vector2) : Scalar := v.x * v.x + v.y * v.y

end Vector2

/-- glam's `Vec2::clamp_length_max(max)`: rescale the vector to length
`m` when its length exceeds `m`, leave it unchanged otherwise.  The
square root is a parameter of the embedding. -/
def clamp_length_max (sqrtQ : Scalar → Scalar) (v : Vector2) (m : Scalar) : Vector2 :=
  let length_sq := v.length_squared
  if m * m < length_sq then
    ⟨v.x * (m / sqrtQ length_sq), v.y * (m / sqrtQ length_sq)⟩
  else v

/-- 3D vector (avian's `Vector`). -/
structure Vector3 where
  x : Scalar
  y : Scalar
  z : Scalar
deriving DecidableEq

namespace Vector3

/-- `Vector::NEG_Z`. -/
def NEG_Z : Vector3 := ⟨0, 0, -1⟩

/-- `Vector::X`. -/
def X : Vector3 := ⟨1, 0, 0⟩

/-- `Vector::Y` (the world up-axis). -/
def Y : Vector3 := ⟨0, 1, 0⟩

/-- Componentwise negation (`-v`). -/
def neg (v : Vector3) : Vector3 := ⟨-v.x, -v.y, -v.z⟩

/-- Scalar multiplication (`v * a`). -/
def smul (a : Scalar) (v : Vector3) : Vector3 := ⟨a * v.x, a * v.y, a * v.z⟩

/-- Componentwise addition (`v + w`). -/
def add (v w : Vector3) : Vector3 := ⟨v.x + w.x, v.y + w.y, v.z + w.z⟩

end Vector3

/-- `FpsController` component (`input.rs`): only the input-enable flag. -/
structure FpsController where
  enable_input : Bool
deriving DecidableEq

/-- The `MovementAction` message (`input.rs`). -/
inductive MovementAction where
  | Move : Vector2 → MovementAction
  | Jump : MovementAction
  | Look : Vector2 → MovementAction
deriving DecidableEq

/-- Keyboard state read by `keyboard_input`: the pressed state of the
eight movement keys and the just-pressed edge of Space. -/
structure KeyboardState where
  keyW : Bool
  keyS : Bool
  keyA : Bool
  keyD : Bool
  arrowUp : Bool
  arrowDown : Bool
  arrowLeft : Bool
  arrowRight : Bool
  spaceJustPressed : Bool
deriving DecidableEq

/-- The `keyboard_input` system (`input.rs`).  Returns the list of
`MovementAction` messages written this tick, in emission order: the
planar Move (when the combined direction is nonzero), then Jump on the
Space edge, then one Look per mouse-motion event — the Look part alone
is gated on some `FpsController` having `enable_input` set. -/
def keyboard_input (sqrtQ : Scalar → Scalar) (keys : KeyboardState)
    (mouse_motion : List Vector2) (fps_controllers : List FpsController) :
    List MovementAction :=
  let input_enabled := fps_controllers.any (fun controller => controller.enable_input)
  let up := keys.keyW || keys.arrowUp
  let down := keys.keyS || keys.arrowDown
  let left := keys.keyA || keys.arrowLeft
  let right := keys.keyD || keys.arrowRight
  let horizontal : Int := (if right then 1 else 0) - (if left then 1 else 0)
  let vertical : Int := (if up then 1 else 0) - (if down then 1 else 0)
  let direction := clamp_length_max sqrtQ ⟨(horizontal : Scalar), (vertical : Scalar)⟩ 1
  (if direction ≠ Vector2.ZERO then [MovementAction.Move direction] else [])
    ++ (if keys.spaceJustPressed then [MovementAction.Jump] else [])
    ++ (if input_enabled then mouse_motion.map (fun d => MovementAction.Look ⟨d.x, d.y⟩) else [])

/-- One connected gamepad as read by `gamepad_input`: the optional
left/right stick axis values and the just-pressed edge of the South
button. -/
structure Gamepad where
  leftStickX : Option Scalar
  leftStickY : Option Scalar
  southJustPressed : Bool
  rightStickX : Option Scalar
  rightStickY : Option Scalar
deriving DecidableEq

/-- The `gamepad_input` system (`input.rs`).  Returns nothing unless some
`FpsController` has `enable_input` set; otherwise, per gamepad: a planar
Move from the clamped left stick, Jump on the South-button edge, and a
Look from the right stick scaled by the fixed sensitivity 2.0 with the
vertical axis inverted. -/
def gamepad_input (sqrtQ : Scalar → Scalar) (gamepads : List Gamepad)
    (fps_controllers : List FpsController) : List MovementAction :=
  let input_enabled := fps_controllers.any (fun controller => controller.enable_input)
  if !input_enabled then []
  else
    gamepads.foldl (fun acc gamepad =>
      acc
        ++ (match gamepad.leftStickX, gamepad.leftStickY with
            | some x, some y => [MovementAction.Move (clamp_length_max sqrtQ ⟨x, y⟩ 1)]
            | _, _ => [])
        ++ (if gamepad.southJustPressed then [MovementAction.Jump] else [])
        ++ (match gamepad.rightStickX, gamepad.rightStickY with
            | some x, some y => [MovementAction.Look ⟨x * 2, -y * 2⟩]
            | _, _ => [])) []

/-- The combined per-tick message queue seen by the consuming systems:
`CharacterControllerPlugin` chains `keyboard_input` before
`gamepad_input`, both writing to the same `MovementAction` queue. -/
def tick_intents (sqrtQ : Scalar → Scalar) (keys : KeyboardState)
    (mouse_motion : List Vector2) (gamepads : List Gamepad)
    (fps_controllers : List FpsController) : List MovementAction :=
  keyboard_input sqrtQ keys mouse_motion fps_controllers
    ++ gamepad_input sqrtQ gamepads fps_controllers

/-- Predicate picking out planar Move intents. -/
def isMove : MovementAction → Bool
  | MovementAction.Move _ => true
  | _ => false

/-- Bevy's `CursorGrabMode`. -/
inductive CursorGrabMode where
  | None : CursorGrabMode
  | Confined : CursorGrabMode
  | Locked : CursorGrabMode
deriving DecidableEq

/-- The cursor options written by `manage_cursor`. -/
structure CursorOptions where
  grab_mode : CursorGrabMode
  visible : Bool
deriving DecidableEq

/-- The `manage_cursor` system (`input.rs`): a left-mouse-button press
edge grabs the cursor and enables every `FpsController`; an Escape press
edge releases the cursor and disables every `FpsController`.  Both
branches are applied in that order within the same run. -/
def manage_cursor (lmbJustPressed escJustPressed : Bool)
    (cursor_options : CursorOptions) (controller_query : List FpsController) :
    CursorOptions × List FpsController :=
  let cursor_grabbed := lmbJustPressed
  let cursor_released := escJustPressed
  let opts1 :=
    if cursor_grabbed then
      { cursor_options with grab_mode := CursorGrabMode.Locked, visible := false }
    else cursor_options
  let opts2 :=
    if cursor_released then
      { opts1 with grab_mode := CursorGrabMode.None, visible := true }
    else opts1
  let controllers :=
    controller_query.map (fun controller =>
      let c1 := if cursor_grabbed then { controller with enable_input := true } else controller
      if cursor_released then { c1 with enable_input := false } else c1)
  (opts2, controllers)

/-- One shape-cast hit as consumed by `update_grounded`: only the
`normal2` field (the hit normal in the collider's local space) is read. -/
structure ShapeHitData where
  normal2 : Vector3

/-- The `update_grounded` system (`controller.rs`), reduced to the
grounded decision it makes for one entity.  `angle_between v w` stands
for glam's `Vec3::angle_between` and `rotation` for the body rotation
acting on vectors; both are parameters of the embedding.  The body is
grounded iff some hit passes the slope filter: with `MaxSlopeAngle`
present, the world-space negated normal must be within that angle of the
up-axis; without it, any hit counts. -/
def update_grounded (angle_between : Vector3 → Vector3 → Scalar)
    (rotation : Vector3 → Vector3) (hits : List ShapeHitData)
    (max_slope_angle : Option Scalar) : Bool :=
  hits.any (fun hit =>
    match max_slope_angle with
    | some angle => decide (|angle_between (rotation (Vector3.neg hit.normal2)) Vector3.Y| ≤ angle)
    | none => true)

/-- The per-entity data of the `movement` system's query
(`MovementAcceleration`, `JumpImpulse`, `LinearVelocity`, `Rotation`,
`Has<Grounded>`, `FpsController`).  The rotation is modelled by its
action on vectors. -/
structure MoveBody where
  movement_acceleration : Scalar
  jump_impulse : Scalar
  linear_velocity : Vector3
  rotation : Vector3 → Vector3
  is_grounded : Bool
  enable_input : Bool

/-- The world-space planar velocity increment computed by `movement` for
one Move intent: `(right * direction.x + forward * direction.y) *
movement_acceleration.0 * delta_time`. -/
def move_delta (body : MoveBody) (delta_time : Scalar) (direction : Vector2) : Vector3 :=
  let forward := body.rotation Vector3.NEG_Z
  let right := body.rotation Vector3.X
  Vector3.smul (body.movement_acceleration * delta_time)
    (Vector3.add (Vector3.smul direction.x right) (Vector3.smul direction.y forward))

/-- One `movement` loop iteration (`movement.rs`): skip when input is
disabled; a Move intent adds its world-space delta to the x and z
velocity components; a Jump intent overwrites the y component with the
jump impulse when grounded; Look intents are ignored. -/
def movement_step (delta_time : Scalar) (event : MovementAction) (body : MoveBody) : MoveBody :=
  if !body.enable_input then body
  else
    match event with
    | MovementAction.Move direction =>
      let movement_vector := move_delta body delta_time direction
      { body with
        linear_velocity :=
          ⟨body.linear_velocity.x + movement_vector.x,
           body.linear_velocity.y,
           body.linear_velocity.z + movement_vector.z⟩ }
    | MovementAction.Jump =>
      if body.is_grounded then
        { body with linear_velocity := { body.linear_velocity with y := body.jump_impulse } }
      else body
    | MovementAction.Look _ => body

/-- The `movement` system for one body: fold `movement_step` over the
tick's message queue in FIFO order. -/
def movement (delta_time : Scalar) (events : List MovementAction) (body : MoveBody) : MoveBody :=
  events.foldl (fun b e => movement_step delta_time e b) body

/-- The `apply_movement_damping` system (`movement.rs`): multiply the x
and z velocity components by the damping factor, leave y untouched.  The
query has no `FpsController` term, so it runs regardless of the
input-enable flag. -/
def apply_movement_damping (damping_factor : Scalar) (linear_velocity : Vector3) : Vector3 :=
  ⟨linear_velocity.x * damping_factor, linear_velocity.y, linear_velocity.z * damping_factor⟩

/-- The `Pitch` component (`movement.rs`). -/
structure Pitch where
  angle : Scalar
  max : Scalar
deriving DecidableEq

/-- Rust's `f32::clamp(lo, hi)` on the idealised scalar. -/
def clampScalar (x lo hi : Scalar) : Scalar :=
  if x < lo then lo else if hi < x then hi else x

/-- The per-entity data of the `mouse_look` system's query, over an
abstract quaternion type `Q`: mouse sensitivity, body rotation, pitch
state, the input-enable flag, and the optional camera child's rotation. -/
structure LookBody (Q : Type) where
  sensitivity : Scalar
  rotation : Q
  pitch : Pitch
  enable_input : Bool
  camera_rotation : Option Q

/-- One `mouse_look` loop iteration (`movement.rs`): on a Look intent
with input enabled, compose a yaw rotation on the left of the body
rotation, integrate and clamp the pitch angle, and overwrite the camera
child's rotation with a pure pitch rotation.  `from_rotation_y` /
`from_rotation_x` and quaternion multiplication are parameters of the
embedding. -/
def mouse_look_step {Q : Type} (from_rotation_y from_rotation_x : Scalar → Q)
    (qmul : Q → Q → Q) (event : MovementAction) (body : LookBody Q) : LookBody Q :=
  match event with
  | MovementAction.Look delta =>
    if !body.enable_input then body
    else
      let yaw_delta := -delta.x * body.sensitivity
      let new_rotation := qmul (from_rotation_y yaw_delta) body.rotation
      let pitch_delta := -delta.y * body.sensitivity
      let new_angle :=
        clampScalar (body.pitch.angle + pitch_delta) (-body.pitch.max) body.pitch.max
      { body with
        rotation := new_rotation
        pitch := { body.pitch with angle := new_angle }
        camera_rotation := body.camera_rotation.map (fun _ => from_rotation_x new_angle) }
  | _ => body

/-- The `mouse_look` system for one body: fold `mouse_look_step` over
the tick's message queue in FIFO order. -/
def mouse_look {Q : Type} (from_rotation_y from_rotation_x : Scalar → Q)
    (qmul : Q → Q → Q) (events : List MovementAction) (body : LookBody Q) : LookBody Q :=
  events.foldl (fun b e => mouse_look_step from_rotation_y from_rotation_x qmul e b) body

/-! ## Helper lemmas -/

theorem movement_cons (delta_time : Scalar) (e : MovementAction) (es : List MovementAction)
    (body : MoveBody) :
    movement delta_time (e :: es) body = movement delta_time es (movement_step delta_time e body) :=
  rfl

theorem mouse_look_cons {Q : Type} (fy fx : Scalar → Q) (qm : Q → Q → Q)
    (e : MovementAction) (es : List MovementAction) (body : LookBody Q) :
    mouse_look fy fx qm (e :: es) body =
      mouse_look fy fx qm es (mouse_look_step fy fx qm e body) :=
  rfl

theorem movement_step_skip (delta_time : Scalar) (e : MovementAction) (body : MoveBody)
    (h : body.enable_input = false) : movement_step delta_time e body = body := by
  simp [movement_step, h]

theorem movement_skip (delta_time : Scalar) (events : List MovementAction) :
    ∀ body : MoveBody, body.enable_input = false → movement delta_time events body = body := by
  induction events with
  | nil => intro body _; rfl
  | cons e es ih =>
    intro body h
    rw [movement_cons, movement_step_skip delta_time e body h]
    exact ih body h

theorem mouse_look_step_skip {Q : Type} (fy fx : Scalar → Q) (qm : Q → Q → Q)
    (e : MovementAction) (body : LookBody Q) (h : body.enable_input = false) :
    mouse_look_step fy fx qm e body = body := by
  cases e <;> simp [mouse_look_step, h]

theorem mouse_look_skip {Q : Type} (fy fx : Scalar → Q) (qm : Q → Q → Q)
    (events : List MovementAction) :
    ∀ body : LookBody Q, body.enable_input = false → mouse_look fy fx qm events body = body := by
  induction events with
  | nil => intro body _; rfl
  | cons e es ih =>
    intro body h
    rw [mouse_look_cons, mouse_look_step_skip fy fx qm e body h]
    exact ih body h

theorem clampScalar_bound (x m : Scalar) (hm : 0 ≤ m) : |clampScalar x (-m) m| ≤ m := by
  unfold clampScalar
  split_ifs with h1 h2 <;> rw [abs_le] <;> constructor <;> linarith

theorem clampScalar_eq_min (x m : Scalar) (hx : -m ≤ x) : clampScalar x (-m) m = min m x := by
  unfold clampScalar
  split_ifs with h1 h2
  · linarith
  · exact (min_eq_left (by linarith)).symm
  · exact (min_eq_right (by linarith)).symm

theorem clampScalar_eq_max (x m : Scalar) (hx : x ≤ m) : clampScalar x (-m) m = max (-m) x := by
  unfold clampScalar
  split_ifs with h1 h2
  · exact (max_eq_left (by linarith)).symm
  · linarith
  · exact (max_eq_right (by linarith)).symm

theorem mem_if_singleton {α : Type} (a x : α) (p : Prop) [Decidable p]
    (h : a ∈ (if p then [x] else [])) : a = x := by
  by_cases hp : p
  · rw [if_pos hp] at h
    simpa using h
  · rw [if_neg hp] at h
    simp at h

theorem movement_step_jump_fix (delta_time : Scalar) (body : MoveBody)
    (hen : body.enable_input = true) (hgr : body.is_grounded = true)
    (hy : body.linear_velocity.y = body.jump_impulse) :
    movement_step delta_time MovementAction.Jump body = body := by
  simp only [movement_step, hen, Bool.not_true, Bool.false_eq_true, if_false, hgr, if_true]
  cases body with
  | mk acc ji lv rot gr en =>
    cases lv
    simp_all

theorem movement_jump_fix (delta_time : Scalar) (n : ℕ) :
    ∀ body : MoveBody, body.enable_input = true → body.is_grounded = true →
      body.linear_velocity.y = body.jump_impulse →
      movement delta_time (List.replicate n MovementAction.Jump) body = body := by
  induction n with
  | zero => intro body _ _ _; rfl
  | succ k ih =>
    intro body hen hgr hy
    rw [List.replicate_succ, movement_cons, movement_step_jump_fix delta_time body hen hgr hy]
    exact ih body hen hgr hy

/-! ## Claim theorems -/

/-- C3: `update_grounded` reports grounded exactly as specified: with no
`MaxSlopeAngle`, grounded iff the hit list is non-empty; with a max
slope angle, grounded iff some hit's normal, rotated into world space
and negated, is within that angle of the world up-axis; and the empty
hit list is never grounded. -/
theorem C3_update_grounded (angle_between : Vector3 → Vector3 → Scalar)
    (rotation : Vector3 → Vector3) (hits : List ShapeHitData) :
    (update_grounded angle_between rotation hits none = true ↔ hits ≠ [])
    ∧ (∀ a : Scalar, update_grounded angle_between rotation hits (some a) = true ↔
        ∃ hit ∈ hits, |angle_between (rotation (Vector3.neg hit.normal2)) Vector3.Y| ≤ a)
    ∧ (∀ msa : Option Scalar, update_grounded angle_between rotation [] msa = false) := by
  refine ⟨?_, ?_, ?_⟩
  · cases hits with
    | nil => simp [update_grounded]
    | cons h t => simp [update_grounded]
  · intro a
    simp [update_grounded, List.any_eq_true]
  · intro msa
    rfl

/-- C4: for an input-enabled body, Jump intents leave the vertical
velocity unchanged when the body is not grounded, and when grounded they
set it to exactly the configured jump impulse — overwriting, not adding,
so any positive number of Jump intents in one tick yields the same
result. -/
theorem C4_jump (delta_time : Scalar) (n : ℕ) (body : MoveBody)
    (hen : body.enable_input = true) :
    (body.is_grounded = false →
      movement delta_time (List.replicate n MovementAction.Jump) body = body)
    ∧ (body.is_grounded = true → 1 ≤ n →
      (movement delta_time (List.replicate n MovementAction.Jump) body).linear_velocity =
        ⟨body.linear_velocity.x, body.jump_impulse, body.linear_velocity.z⟩) := by
  constructor
  · intro hgr
    induction n with
    | zero => rfl
    | succ k ih =>
      rw [List.replicate_succ, movement_cons]
      have hstep : movement_step delta_time MovementAction.Jump body = body := by
        simp [movement_step, hen, hgr]
      rw [hstep]
      exact ih
  · intro hgr hn
    obtain ⟨k, rfl⟩ : ∃ k, n = k + 1 := ⟨n - 1, (Nat.succ_pred_eq_of_pos hn).symm⟩
    rw [List.replicate_succ, movement_cons]
    have hstep : movement_step delta_time MovementAction.Jump body =
        { body with linear_velocity := { body.linear_velocity with y := body.jump_impulse } } := by
      simp [movement_step, hen, hgr]
    rw [hstep]
    rw [movement_jump_fix delta_time k
      { body with linear_velocity := { body.linear_velocity with y := body.jump_impulse } }
      hen hgr rfl]

/-- C4 witness: a grounded, enabled body with velocity (1, 2, 3) and
jump impulse 7 processing two Jump intents ends with velocity (1, 7, 3). -/
theorem C4_jump_witness :
    (movement 1 (List.replicate 2 MovementAction.Jump)
        ⟨30, 7, ⟨1, 2, 3⟩, id, true, true⟩).linear_velocity = ⟨1, 7, 3⟩ :=
  (C4_jump 1 2 ⟨30, 7, ⟨1, 2, 3⟩, id, true, true⟩ rfl).2 rfl (by norm_num)

/-- C6: the damping stage multiplies the x and z velocity components by
the damping factor and leaves y unchanged, so n consecutive applications
scale the horizontal components by the factor to the n-th power exactly
(the idealised-scalar form of the spec's floating-point tolerance). -/
theorem C6_damping (damping_factor : Scalar) (v : Vector3) (n : ℕ) :
    (apply_movement_damping damping_factor)^[n] v =
      ⟨v.x * damping_factor ^ n, v.y, v.z * damping_factor ^ n⟩ := by
  induction n with
  | zero => cases v; simp
  | succ k ih =>
    rw [Function.iterate_succ_apply', ih]
    simp only [apply_movement_damping, Vector3.mk.injEq, pow_succ]
    ring_nf
    simp

/-- C7: a resting, grounded, enabled body with identity rotation,
acceleration 30 and tick 1/60 s processing one Move intent with
direction (1, 0) reaches velocity (0.5, 0, 0), and the damping stage at
factor 0.9 then yields (0.45, 0, 0). -/
theorem C7_scenario :
    (movement (1/60) [MovementAction.Move ⟨1, 0⟩]
        ⟨30, 7, ⟨0, 0, 0⟩, id, true, true⟩).linear_velocity = ⟨1/2, 0, 0⟩
    ∧ apply_movement_damping (9/10)
        (movement (1/60) [MovementAction.Move ⟨1, 0⟩]
          ⟨30, 7, ⟨0, 0, 0⟩, id, true, true⟩).linear_velocity = ⟨9/20, 0, 0⟩ := by
  norm_num [movement, movement_step, move_delta, apply_movement_damping,
    Vector3.smul, Vector3.add, Vector3.NEG_Z, Vector3.X]

/-- C9: a body whose `FpsController` has `enable_input = false` is
skipped entirely by the `movement` and `mouse_look` systems: its linear
velocity, rotation, pitch (and every other field) are unchanged by any
intent stream. -/
theorem C9_disabled {Q : Type} (fy fx : Scalar → Q) (qm : Q → Q → Q) (delta_time : Scalar)
    (events : List MovementAction) (mbody : MoveBody) (lbody : LookBody Q)
    (h1 : mbody.enable_input = false) (h2 : lbody.enable_input = false) :
    movement delta_time events mbody = mbody ∧ mouse_look fy fx qm events lbody = lbody :=
  ⟨movement_skip delta_time events mbody h1, mouse_look_skip fy fx qm events lbody h2⟩

/-- C9 witness: a disabled body processing a Move, a Jump and a Look is
left unchanged by both systems. -/
theorem C9_disabled_witness :
    movement (1/60) [MovementAction.Move ⟨1, 0⟩, MovementAction.Jump,
        MovementAction.Look ⟨1, 1⟩] ⟨30, 7, ⟨0, 0, 0⟩, id, true, false⟩ =
      ⟨30, 7, ⟨0, 0, 0⟩, id, true, false⟩
    ∧ mouse_look (fun _ => ()) (fun _ => ()) (fun _ _ => ())
        [MovementAction.Move ⟨1, 0⟩, MovementAction.Jump, MovementAction.Look ⟨1, 1⟩]
        ⟨1, (), ⟨0, 2⟩, false, none⟩ =
      ⟨1, (), ⟨0, 2⟩, false, none⟩ :=
  C9_disabled (fun _ => ()) (fun _ => ()) (fun _ _ => ()) (1/60)
    [MovementAction.Move ⟨1, 0⟩, MovementAction.Jump, MovementAction.Look ⟨1, 1⟩]
    ⟨30, 7, ⟨0, 0, 0⟩, id, true, false⟩ ⟨1, (), ⟨0, 2⟩, false, none⟩ rfl rfl

/-- C10: when a left-mouse press edge and an Escape press edge occur in
the same `manage_cursor` run, the release branch is applied after the
grab branch, so the cursor ends released and visible and every
`FpsController` ends with `enable_input = false`. -/
theorem C10_escape_wins (cursor_options : CursorOptions) (ctrls : List FpsController) :
    (manage_cursor true true cursor_options ctrls).1.grab_mode = CursorGrabMode.None
    ∧ (manage_cursor true true cursor_options ctrls).1.visible = true
    ∧ ∀ c ∈ (manage_cursor true true cursor_options ctrls).2, c.enable_input = false := by
  refine ⟨rfl, rfl, ?_⟩
  intro c hc
  simp only [manage_cursor, if_true, List.mem_map] at hc
  obtain ⟨a, _, rfl⟩ := hc
  rfl

/-- C10 witness: starting from a locked, hidden cursor and one enabled
controller, a simultaneous left-click and Escape edge leave the cursor
released and visible, and the controller that the run maps to the head
of the output list is disabled. -/
theorem C10_escape_wins_witness :
    (manage_cursor true true ⟨CursorGrabMode.Locked, false⟩ [⟨true⟩]).1.grab_mode
        = CursorGrabMode.None
    ∧ (manage_cursor true true ⟨CursorGrabMode.Locked, false⟩ [⟨true⟩]).1.visible = true
    ∧ (⟨false⟩ : FpsController).enable_input = false :=
  ⟨(C10_escape_wins ⟨CursorGrabMode.Locked, false⟩ [⟨true⟩]).1,
   (C10_escape_wins ⟨CursorGrabMode.Locked, false⟩ [⟨true⟩]).2.1,
   (C10_escape_wins ⟨CursorGrabMode.Locked, false⟩ [⟨true⟩]).2.2 ⟨false⟩ (by decide)⟩

/-- C1 counterexample: with the only `FpsController` disabled and only
the W key held, `keyboard_input` still emits a Move intent — the
input-enable gate in `keyboard_input` covers only the mouse-look part,
so the claim that no intents at all are emitted is false. -/
theorem C1_counterexample :
    ([⟨false⟩] : List FpsController).any (fun c => c.enable_input) = false
    ∧ keyboard_input (fun q => q)
        ⟨true, false, false, false, false, false, false, false, false⟩ [] [⟨false⟩]
        = [MovementAction.Move ⟨0, 1⟩]
    ∧ keyboard_input (fun q => q)
        ⟨true, false, false, false, false, false, false, false, false⟩ [] [⟨false⟩] ≠ [] := by
  have h2 : keyboard_input (fun q => q)
      ⟨true, false, false, false, false, false, false, false, false⟩ [] [⟨false⟩]
      = [MovementAction.Move ⟨0, 1⟩] := by
    norm_num [keyboard_input, clamp_length_max, Vector2.length_squared, Vector2.ZERO,
      Vector2.mk.injEq]
  exact ⟨rfl, h2, by rw [h2]; simp⟩

/-- C1 amended: when no `FpsController` has `enable_input` set,
`gamepad_input` emits nothing and `keyboard_input` emits no Look
intents; keyboard Move and Jump intents are still emitted from key
state. -/
theorem C1_amended (sqrtK sqrtG : Scalar → Scalar) (keys : KeyboardState)
    (mouse_motion : List Vector2) (gamepads : List Gamepad)
    (fps_controllers : List FpsController)
    (h : fps_controllers.any (fun c => c.enable_input) = false) :
    gamepad_input sqrtG gamepads fps_controllers = []
    ∧ ∀ a ∈ keyboard_input sqrtK keys mouse_motion fps_controllers,
        ∀ d : Vector2, a ≠ MovementAction.Look d := by
  constructor
  · simp [gamepad_input, h]
  · intro a ha d
    simp only [keyboard_input, h, Bool.false_eq_true, if_false, List.append_nil,
      List.mem_append] at ha
    rcases ha with ha | ha
    · rw [mem_if_singleton _ _ _ ha]
      simp
    · rw [mem_if_singleton _ _ _ ha]
      simp

/-- C1 amended witness: with the only controller disabled, the W key and
Space held, mouse motion present and a fully active gamepad connected,
the gamepad emits nothing, and the keyboard's Move emission is not a
Look intent. -/
theorem C1_amended_witness :
    gamepad_input (fun q => q) [⟨some 1, some 1, true, some 1, some 1⟩] [⟨false⟩] = []
    ∧ MovementAction.Move ⟨0, 1⟩ ≠ MovementAction.Look ⟨7, 8⟩ :=
  ⟨(C1_amended (fun q => q) (fun q => q)
      ⟨true, false, false, false, false, false, false, false, true⟩ [⟨5, 5⟩]
      [⟨some 1, some 1, true, some 1, some 1⟩] [⟨false⟩] rfl).1,
   (C1_amended (fun q => q) (fun q => q)
      ⟨true, false, false, false, false, false, false, false, true⟩ [⟨5, 5⟩]
      [⟨some 1, some 1, true, some 1, some 1⟩] [⟨false⟩] rfl).2
    (MovementAction.Move ⟨0, 1⟩)
    (by norm_num [keyboard_input, clamp_length_max, Vector2.length_squared, Vector2.ZERO,
      Vector2.mk.injEq])
    ⟨7, 8⟩⟩

/-- C2 counterexample: with input enabled, the D key held and a gamepad
left stick at (1, 0), the per-tick queue contains two Move intents —
not at most one — and `movement` applies both additively: the resulting
x-velocity is 1, not the 1/2 that the gamepad's value alone would give,
so no overwriting of the keyboard intent by the gamepad occurs. -/
theorem C2_counterexample :
    tick_intents (fun q => q) ⟨false, false, false, true, false, false, false, false, false⟩ []
        [⟨some 1, some 0, false, none, none⟩] [⟨true⟩]
      = [MovementAction.Move ⟨1, 0⟩, MovementAction.Move ⟨1, 0⟩]
    ∧ ¬ ((tick_intents (fun q => q)
          ⟨false, false, false, true, false, false, false, false, false⟩ []
          [⟨some 1, some 0, false, none, none⟩] [⟨true⟩]).countP isMove ≤ 1)
    ∧ (movement (1/60)
        (tick_intents (fun q => q) ⟨false, false, false, true, false, false, false, false, false⟩
          [] [⟨some 1, some 0, false, none, none⟩] [⟨true⟩])
        ⟨30, 7, ⟨0, 0, 0⟩, id, true, true⟩).linear_velocity.x = 1
    ∧ (movement (1/60) [MovementAction.Move ⟨1, 0⟩]
        ⟨30, 7, ⟨0, 0, 0⟩, id, true, true⟩).linear_velocity.x = 1/2 := by
  have hq : tick_intents (fun q => q)
      ⟨false, false, false, true, false, false, false, false, false⟩ []
      [⟨some 1, some 0, false, none, none⟩] [⟨true⟩]
      = [MovementAction.Move ⟨1, 0⟩, MovementAction.Move ⟨1, 0⟩] := by
    norm_num [tick_intents, keyboard_input, gamepad_input, clamp_length_max,
      Vector2.length_squared, Vector2.ZERO, Vector2.mk.injEq]
  refine ⟨hq, ?_, ?_, ?_⟩
  · rw [hq]
    simp [isMove]
  · rw [hq]
    norm_num [movement, movement_step, move_delta, Vector3.smul, Vector3.add,
      Vector3.NEG_Z, Vector3.X]
  · norm_num [movement, movement_step, move_delta, Vector3.smul, Vector3.add,
      Vector3.NEG_Z, Vector3.X]

/-- C2 amended: keyboard and gamepad may each contribute a planar Move
intent in the same tick; `movement` processes every Move intent in FIFO
order, adding each intent's world-space delta to the horizontal velocity
— the per-tick change is the sum of the contributions, with the vertical
component untouched. -/
theorem C2_amended (delta_time : Scalar) (d1 d2 : Vector2) (body : MoveBody)
    (h : body.enable_input = true) :
    (movement delta_time [MovementAction.Move d1, MovementAction.Move d2] body).linear_velocity =
      ⟨body.linear_velocity.x + (move_delta body delta_time d1).x
         + (move_delta body delta_time d2).x,
       body.linear_velocity.y,
       body.linear_velocity.z + (move_delta body delta_time d1).z
         + (move_delta body delta_time d2).z⟩ := by
  simp [movement, movement_step, h, move_delta]

/-- C2 amended witness: at rest with identity rotation, acceleration 30
and tick 1/60, two Move(1, 0) intents in one tick give x-velocity
1/2 + 1/2 = 1. -/
theorem C2_amended_witness :
    (movement (1/60) [MovementAction.Move ⟨1, 0⟩, MovementAction.Move ⟨1, 0⟩]
        ⟨30, 7, ⟨0, 0, 0⟩, id, true, true⟩).linear_velocity =
      ⟨0 + (move_delta ⟨30, 7, ⟨0, 0, 0⟩, id, true, true⟩ (1/60) ⟨1, 0⟩).x
         + (move_delta ⟨30, 7, ⟨0, 0, 0⟩, id, true, true⟩ (1/60) ⟨1, 0⟩).x,
       0,
       0 + (move_delta ⟨30, 7, ⟨0, 0, 0⟩, id, true, true⟩ (1/60) ⟨1, 0⟩).z
         + (move_delta ⟨30, 7, ⟨0, 0, 0⟩, id, true, true⟩ (1/60) ⟨1, 0⟩).z⟩ :=
  C2_amended (1/60) ⟨1, 0⟩ ⟨1, 0⟩ ⟨30, 7, ⟨0, 0, 0⟩, id, true, true⟩ rfl


/-- C8: on a planar input vector whose squared length exceeds 1 (with a
square root that is exact and positive at that value), the clamp yields
a vector of squared length exactly 1 that is a positive scalar multiple
of the input (direction preserved); a vector of length at most 1 passes
through unchanged. -/
theorem C8_clamp (sqrtQ : Scalar → Scalar) (v : Vector2) :
    (1 < v.length_squared →
      sqrtQ v.length_squared * sqrtQ v.length_squared = v.length_squared →
      0 < sqrtQ v.length_squared →
      (clamp_length_max sqrtQ v 1).length_squared = 1
      ∧ 0 < 1 / sqrtQ v.length_squared
      ∧ (clamp_length_max sqrtQ v 1).x = (1 / sqrtQ v.length_squared) * v.x
      ∧ (clamp_length_max sqrtQ v 1).y = (1 / sqrtQ v.length_squared) * v.y)
    ∧ (v.length_squared ≤ 1 → clamp_length_max sqrtQ v 1 = v) := by
  constructor
  · intro h1 h2 h3
    have hcond : (1 : Scalar) * 1 < v.length_squared := by rw [one_mul]; exact h1
    have hne : sqrtQ v.length_squared ≠ 0 := ne_of_gt h3
    have hres : clamp_length_max sqrtQ v 1 =
        ⟨v.x * (1 / sqrtQ v.length_squared), v.y * (1 / sqrtQ v.length_squared)⟩ := by
      rw [clamp_length_max]
      simp only [if_pos hcond]
    refine ⟨?_, by positivity, ?_, ?_⟩
    · rw [hres]
      simp only [Vector2.length_squared] at h1 h2 ⊢
      have hL : v.x * v.x + v.y * v.y ≠ 0 := by nlinarith
      have expand : v.x * (1 / sqrtQ (v.x * v.x + v.y * v.y))
            * (v.x * (1 / sqrtQ (v.x * v.x + v.y * v.y)))
          + v.y * (1 / sqrtQ (v.x * v.x + v.y * v.y))
            * (v.y * (1 / sqrtQ (v.x * v.x + v.y * v.y)))
          = (v.x * v.x + v.y * v.y)
            * (1 / (sqrtQ (v.x * v.x + v.y * v.y) * sqrtQ (v.x * v.x + v.y * v.y))) := by
        ring
      rw [expand, h2, one_div, mul_inv_cancel₀ hL]
    · rw [hres]
      ring
    · rw [hres]
      ring
  · intro h
    have hcond : ¬ ((1 : Scalar) * 1 < v.length_squared) := by
      rw [one_mul]
      exact not_lt.mpr h
    rw [clamp_length_max]
    simp only [if_neg hcond]

/-- C8 witness: the vector (3/2, 2) has squared length 25/4 with exact
square root 5/2; the clamp maps it to (3/5, 4/5), of length one and
positively proportional to the input. -/
theorem C8_clamp_witness :
    (clamp_length_max (fun _ => (5/2 : ℚ)) ⟨3/2, 2⟩ 1).length_squared = 1
    ∧ 0 < 1 / (5/2 : ℚ)
    ∧ (clamp_length_max (fun _ => (5/2 : ℚ)) ⟨3/2, 2⟩ 1).x = (1 / (5/2 : ℚ)) * (3/2)
    ∧ (clamp_length_max (fun _ => (5/2 : ℚ)) ⟨3/2, 2⟩ 1).y = (1 / (5/2 : ℚ)) * 2 :=
  (C8_clamp (fun _ => (5/2 : ℚ)) ⟨3/2, 2⟩).1
    (by norm_num [Vector2.length_squared])
    (by norm_num [Vector2.length_squared])
    (by norm_num [Vector2.length_squared])

theorem list_sum_nonpos (l : List Scalar) (h : ∀ x ∈ l, x ≤ 0) : l.sum ≤ 0 := by
  induction l with
  | nil => simp
  | cons a t ih =>
    rw [List.sum_cons]
    have ha := h a (List.mem_cons_self a t)
    have ht := ih (fun x hx => h x (List.mem_cons_of_mem a hx))
    linarith

theorem look_step_enabled {Q : Type} (fy fx : Scalar → Q) (qm : Q → Q → Q)
    (d : Vector2) (body : LookBody Q) (h : body.enable_input = true) :
    (mouse_look_step fy fx qm (MovementAction.Look d) body).pitch.angle
      = clampScalar (body.pitch.angle + (-d.y * body.sensitivity)) (-body.pitch.max)
          body.pitch.max
    ∧ (mouse_look_step fy fx qm (MovementAction.Look d) body).pitch.max = body.pitch.max
    ∧ (mouse_look_step fy fx qm (MovementAction.Look d) body).sensitivity = body.sensitivity
    ∧ (mouse_look_step fy fx qm (MovementAction.Look d) body).enable_input = true := by
  simp [mouse_look_step, h]

theorem mouse_look_pitch_invariant {Q : Type} (fy fx : Scalar → Q) (qm : Q → Q → Q)
    (deltas : List Vector2) :
    ∀ body : LookBody Q, 0 ≤ body.pitch.max → |body.pitch.angle| ≤ body.pitch.max →
      |(mouse_look fy fx qm (deltas.map MovementAction.Look) body).pitch.angle| ≤ body.pitch.max
      ∧ (mouse_look fy fx qm (deltas.map MovementAction.Look) body).pitch.max
          = body.pitch.max := by
  induction deltas with
  | nil => intro body hm hb; exact ⟨hb, rfl⟩
  | cons d ds ih =>
    intro body hm hb
    rw [List.map_cons, mouse_look_cons]
    rcases Bool.eq_false_or_eq_true body.enable_input with he | he
    · have hstep := look_step_enabled fy fx qm d body he
      have h1 := ih (mouse_look_step fy fx qm (MovementAction.Look d) body)
        (by rw [hstep.2.1]; exact hm)
        (by rw [hstep.1, hstep.2.1]; exact clampScalar_bound _ _ hm)
      rw [hstep.2.1] at h1
      exact h1
    · rw [mouse_look_step_skip fy fx qm _ body he]
      exact ih body hm hb

theorem mouse_look_pitch_min {Q : Type} (fy fx : Scalar → Q) (qm : Q → Q → Q)
    (deltas : List Vector2) :
    ∀ body : LookBody Q, body.enable_input = true → 0 ≤ body.pitch.max →
      -body.pitch.max ≤ body.pitch.angle → body.pitch.angle ≤ body.pitch.max →
      (∀ d ∈ deltas, 0 ≤ -d.y * body.sensitivity) →
      (mouse_look fy fx qm (deltas.map MovementAction.Look) body).pitch.angle =
        min body.pitch.max
          (body.pitch.angle + (deltas.map (fun d => -d.y * body.sensitivity)).sum) := by
  induction deltas with
  | nil =>
    intro body he hm h1 h2 hd
    simp only [List.map_nil, List.sum_nil, add_zero, mouse_look, List.foldl_nil]
    exact (min_eq_right h2).symm
  | cons d ds ih =>
    intro body he hm h1 h2 hd
    rw [List.map_cons, mouse_look_cons]
    have hstep := look_step_enabled fy fx qm d body he
    have hpd0 : 0 ≤ -d.y * body.sensitivity := hd d (List.mem_cons_self d ds)
    have hangle : (mouse_look_step fy fx qm (MovementAction.Look d) body).pitch.angle
        = min body.pitch.max (body.pitch.angle + -d.y * body.sensitivity) := by
      rw [hstep.1, clampScalar_eq_min _ _ (by linarith)]
    have hih := ih (mouse_look_step fy fx qm (MovementAction.Look d) body) hstep.2.2.2
      (by rw [hstep.2.1]; exact hm)
      (by
        rw [hangle, hstep.2.1]
        exact le_min (by linarith) (by linarith))
      (by rw [hangle, hstep.2.1]; exact min_le_left _ _)
      (by
        intro e hedge
        rw [hstep.2.2.1]
        exact hd e (List.mem_cons_of_mem d hedge))
    rw [hstep.2.1, hstep.2.2.1] at hih
    rw [hih, hangle]
    have hS : 0 ≤ (ds.map (fun e => -e.y * body.sensitivity)).sum := by
      apply List.sum_nonneg
      intro x hx
      simp only [List.mem_map] at hx
      obtain ⟨e, hedge, rfl⟩ := hx
      exact hd e (List.mem_cons_of_mem d hedge)
    rw [List.map_cons, List.sum_cons]
    rcases le_or_lt (body.pitch.angle + -d.y * body.sensitivity) body.pitch.max with hc | hc
    · rw [min_eq_right hc, add_assoc]
    · rw [min_eq_left hc.le, min_eq_left (by linarith), min_eq_left (by linarith)]

theorem mouse_look_pitch_max {Q : Type} (fy fx : Scalar → Q) (qm : Q → Q → Q)
    (deltas : List Vector2) :
    ∀ body : LookBody Q, body.enable_input = true → 0 ≤ body.pitch.max →
      -body.pitch.max ≤ body.pitch.angle → body.pitch.angle ≤ body.pitch.max →
      (∀ d ∈ deltas, -d.y * body.sensitivity ≤ 0) →
      (mouse_look fy fx qm (deltas.map MovementAction.Look) body).pitch.angle =
        max (-body.pitch.max)
          (body.pitch.angle + (deltas.map (fun d => -d.y * body.sensitivity)).sum) := by
  induction deltas with
  | nil =>
    intro body he hm h1 h2 hd
    simp only [List.map_nil, List.sum_nil, add_zero, mouse_look, List.foldl_nil]
    exact (max_eq_right h1).symm
  | cons d ds ih =>
    intro body he hm h1 h2 hd
    rw [List.map_cons, mouse_look_cons]
    have hstep := look_step_enabled fy fx qm d body he
    have hpd0 : -d.y * body.sensitivity ≤ 0 := hd d (List.mem_cons_self d ds)
    have hangle : (mouse_look_step fy fx qm (MovementAction.Look d) body).pitch.angle
        = max (-body.pitch.max) (body.pitch.angle + -d.y * body.sensitivity) := by
      rw [hstep.1, clampScalar_eq_max _ _ (by linarith)]
    have hih := ih (mouse_look_step fy fx qm (MovementAction.Look d) body) hstep.2.2.2
      (by rw [hstep.2.1]; exact hm)
      (by rw [hangle, hstep.2.1]; exact le_max_left _ _)
      (by
        rw [hangle, hstep.2.1]
        exact max_le (by linarith) (by linarith))
      (by
        intro e hedge
        rw [hstep.2.2.1]
        exact hd e (List.mem_cons_of_mem d hedge))
    rw [hstep.2.1, hstep.2.2.1] at hih
    rw [hih, hangle]
    have hS : (ds.map (fun e => -e.y * body.sensitivity)).sum ≤ 0 := by
      apply list_sum_nonpos
      intro x hx
      simp only [List.mem_map] at hx
      obtain ⟨e, hedge, rfl⟩ := hx
      exact hd e (List.mem_cons_of_mem d hedge)
    rw [List.map_cons, List.sum_cons]
    rcases le_or_lt (-body.pitch.max) (body.pitch.angle + -d.y * body.sensitivity) with hc | hc
    · rw [max_eq_right hc, add_assoc]
    · rw [max_eq_left hc.le, max_eq_left (by linarith), max_eq_left (by linarith)]



/-- C5: after any sequence of Look intents starting from a pitch within
bounds, the stored pitch angle stays within ±max; when input is enabled
and every intent drives the pitch in the same direction with enough
accumulated magnitude to pass the bound, the stored pitch equals exactly
+max (respectively −max). -/
theorem C5_pitch_clamped {Q : Type} (fy fx : Scalar → Q) (qm : Q → Q → Q)
    (deltas : List Vector2) (body : LookBody Q)
    (hmax : 0 ≤ body.pitch.max) (hstart : |body.pitch.angle| ≤ body.pitch.max) :
    |(mouse_look fy fx qm (deltas.map MovementAction.Look) body).pitch.angle| ≤ body.pitch.max
    ∧ (body.enable_input = true →
        (∀ d ∈ deltas, 0 ≤ -d.y * body.sensitivity) →
        body.pitch.max ≤ body.pitch.angle
            + (deltas.map (fun d => -d.y * body.sensitivity)).sum →
        (mouse_look fy fx qm (deltas.map MovementAction.Look) body).pitch.angle
          = body.pitch.max)
    ∧ (body.enable_input = true →
        (∀ d ∈ deltas, -d.y * body.sensitivity ≤ 0) →
        body.pitch.angle + (deltas.map (fun d => -d.y * body.sensitivity)).sum
            ≤ -body.pitch.max →
        (mouse_look fy fx qm (deltas.map MovementAction.Look) body).pitch.angle
          = -body.pitch.max) := by
  obtain ⟨hlo, hhi⟩ := abs_le.mp hstart
  refine ⟨(mouse_look_pitch_invariant fy fx qm deltas body hmax hstart).1, ?_, ?_⟩
  · intro he hd hsum
    rw [mouse_look_pitch_min fy fx qm deltas body he hmax hlo hhi hd]
    exact min_eq_left hsum
  · intro he hd hsum
    rw [mouse_look_pitch_max fy fx qm deltas body he hmax hlo hhi hd]
    exact max_eq_left hsum

/-- C5 witness: sensitivity 1, pitch bound 3/2, two Look intents with
deltaY = −1 each accumulate pitch 2 past the bound, and the stored pitch
ends at exactly 3/2. -/
theorem C5_pitch_clamped_witness :
    (mouse_look (fun _ => ()) (fun _ => ()) (fun _ _ => ())
        ([⟨0, -1⟩, ⟨0, -1⟩].map MovementAction.Look)
        (⟨1, (), ⟨0, 3/2⟩, true, none⟩ : LookBody Unit)).pitch.angle = 3/2 :=
  (C5_pitch_clamped (fun _ => ()) (fun _ => ()) (fun _ _ => ()) [⟨0, -1⟩, ⟨0, -1⟩]
      ⟨1, (), ⟨0, 3/2⟩, true, none⟩ (by norm_num) (by norm_num)).2.1 rfl
    (by intro d hd; fin_cases hd <;> norm_num)
    (by norm_num [List.map_cons, List.map_nil, List.sum_cons, List.sum_nil])

end BevyMovement
